import Mathlib

/-
  Shallow embedding of the boids flocking kernel of `bird.js` (class `Boid`)
  and the per-frame driver of `main.js`.

  Scalars are real numbers.  The three.js `Vector3` operations the kernel
  calls (`add`, `sub`/`subVectors`, `multiplyScalar`, `divideScalar`,
  `length`, `lengthSq`, `distanceTo`, `normalize`, `setLength`,
  `clampLength`) are translated from the three.js sources; in particular
  `normalize` and `clampLength` divide by `length() || 1`, which is
  rendered as an explicit `if length = 0 then 1 else length` guard.

  A second, `Option`-valued copy of the operations tracks where a true
  division by zero (a NaN in JS float arithmetic) would occur: dividing by
  zero yields `none`, and every guard of the source is kept.  Proving an
  `Option`-valued function equal to `some` of its total counterpart shows
  the corresponding source computation never manufactures a NaN.
-/

namespace Flocking

noncomputable section

/-- A 3D vector over the reals (three.js `Vector3`). -/
structure Vec3 where
  x : ℝ
  y : ℝ
  z : ℝ

/-- three.js `new Vector3()`: the zero vector. -/
def Vec3.zero : Vec3 := ⟨0, 0, 0⟩

/-- three.js `Vector3.add`. -/
def Vec3.add (a b : Vec3) : Vec3 := ⟨a.x + b.x, a.y + b.y, a.z + b.z⟩

/-- three.js `Vector3.sub` / `subVectors`. -/
def Vec3.sub (a b : Vec3) : Vec3 := ⟨a.x - b.x, a.y - b.y, a.z - b.z⟩

/-- three.js `Vector3.multiplyScalar`. -/
def Vec3.multiplyScalar (v : Vec3) (s : ℝ) : Vec3 := ⟨v.x * s, v.y * s, v.z * s⟩

/-- three.js `Vector3.divideScalar(s)`, defined there as `multiplyScalar(1/s)`. -/
def Vec3.divideScalar (v : Vec3) (s : ℝ) : Vec3 := v.multiplyScalar (1 / s)

/-- three.js `Vector3.lengthSq`. -/
def Vec3.lengthSq (v : Vec3) : ℝ := v.x ^ 2 + v.y ^ 2 + v.z ^ 2

/-- three.js `Vector3.length`. -/
def Vec3.length (v : Vec3) : ℝ := Real.sqrt v.lengthSq

/-- three.js `Vector3.distanceTo`. -/
def Vec3.distanceTo (a b : Vec3) : ℝ := (a.sub b).length

/-- three.js `Vector3.normalize`: `divideScalar(this.length() || 1)` — the
    zero vector is left unchanged rather than divided by zero. -/
def Vec3.normalize (v : Vec3) : Vec3 :=
  v.divideScalar (if v.length = 0 then 1 else v.length)

/-- three.js `Vector3.setLength(l)`: `normalize().multiplyScalar(l)`. -/
def Vec3.setLength (v : Vec3) (l : ℝ) : Vec3 := v.normalize.multiplyScalar l

/-- three.js `Vector3.clampLength(lo, hi)`:
    `divideScalar(length || 1).multiplyScalar(max(lo, min(hi, length)))`. -/
def Vec3.clampLength (v : Vec3) (lo hi : ℝ) : Vec3 :=
  (v.divideScalar (if v.length = 0 then 1 else v.length)).multiplyScalar
    (max lo (min hi v.length))

/-- The kinematic state of one boid (`bird.js` class `Boid`; the rendering
    mesh is omitted — its derived facing direction is modelled separately
    by `faceAxisO`). -/
structure Boid where
  position : Vec3
  velocity : Vec3
  acceleration : Vec3
  maxForce : ℝ
  maxSpeed : ℝ

/-- The `Boid` constructor (`bird.js` lines 4–23).  Each `rᵢ` stands for one
    `Math.random()` draw, a real in `[0, 1)`:
    `position = (r₁·400−200, r₂·50+50, r₃·400−200)`,
    `velocity = (r₄·2−1, r₅·2−1, r₆·2−1)` re-scaled by
    `setLength(r₇·4+2)`, `acceleration = 0`, `maxForce = 0.05`,
    `maxSpeed = 4.0`. -/
def mkBoid (r1 r2 r3 r4 r5 r6 r7 : ℝ) : Boid :=
  ⟨⟨r1 * 400 - 200, r2 * 50 + 50, r3 * 400 - 200⟩,
   Vec3.setLength ⟨r4 * 2 - 1, r5 * 2 - 1, r6 * 2 - 1⟩ (r7 * 4 + 2),
   Vec3.zero, 0.05, 4.0⟩

/-- One loop iteration of `Boid.separate`: if `0 < d < radius`, add
    `normalize(self.position − other.position) / d` to the accumulator and
    bump the neighbor count. -/
def sepStep (self : Boid) (radius : ℝ) (acc : Vec3 × ℕ) (other : Boid) :
    Vec3 × ℕ :=
  let d := self.position.distanceTo other.position
  if 0 < d ∧ d < radius then
    (acc.1.add (((self.position.sub other.position).normalize).divideScalar d),
     acc.2 + 1)
  else acc

/-- Embeds `Boid.separate(boids, radius)` (`bird.js` lines 28–50). -/
def separate (self : Boid) (boids : List Boid) (radius : ℝ) : Vec3 :=
  let sc := boids.foldl (sepStep self radius) (Vec3.zero, 0)
  let steer := if 0 < sc.2 then sc.1.divideScalar (sc.2 : ℝ) else sc.1
  if 0 < steer.lengthSq then
    ((steer.setLength self.maxSpeed).sub self.velocity).clampLength 0
      self.maxForce
  else steer

/-- One loop iteration of `Boid.align`: if `0 < d < radius`, add the
    velocity of the neighbor and bump the count. -/
def alignStep (self : Boid) (radius : ℝ) (acc : Vec3 × ℕ) (other : Boid) :
    Vec3 × ℕ :=
  let d := self.position.distanceTo other.position
  if 0 < d ∧ d < radius then (acc.1.add other.velocity, acc.2 + 1) else acc

/-- Embeds `Boid.align(boids, radius)` (`bird.js` lines 53–72). -/
def align (self : Boid) (boids : List Boid) (radius : ℝ) : Vec3 :=
  let sc := boids.foldl (alignStep self radius) (Vec3.zero, 0)
  if 0 < sc.2 then
    (((sc.1.divideScalar (sc.2 : ℝ)).setLength self.maxSpeed).sub
        self.velocity).clampLength 0 self.maxForce
  else Vec3.zero

/-- One loop iteration of `Boid.cohere`: if `0 < d < radius`, add the
    position of the neighbor and bump the count. -/
def cohStep (self : Boid) (radius : ℝ) (acc : Vec3 × ℕ) (other : Boid) :
    Vec3 × ℕ :=
  let d := self.position.distanceTo other.position
  if 0 < d ∧ d < radius then (acc.1.add other.position, acc.2 + 1) else acc

/-- Embeds `Boid.seek(target)` (`bird.js` lines 96–102). -/
def seek (self : Boid) (target : Vec3) : Vec3 :=
  (((target.sub self.position).setLength self.maxSpeed).sub
      self.velocity).clampLength 0 self.maxForce

/-- Embeds `Boid.cohere(boids, radius)` (`bird.js` lines 75–91). -/
def cohere (self : Boid) (boids : List Boid) (radius : ℝ) : Vec3 :=
  let sc := boids.foldl (cohStep self radius) (Vec3.zero, 0)
  if 0 < sc.2 then seek self (sc.1.divideScalar (sc.2 : ℝ)) else Vec3.zero

/-- The flocking parameters of `main.js` (`params` object): rule weights
    and neighbor radii. -/
structure Params where
  separation : ℝ
  alignment : ℝ
  cohesion : ℝ
  separationRadius : ℝ
  alignmentRadius : ℝ
  cohesionRadius : ℝ

/-- Embeds `Boid.flock(boids, params)` (`bird.js` lines 105–118): weigh the three
    raw rule outputs and add them into the acceleration. -/
def flock (self : Boid) (boids : List Boid) (params : Params) : Boid :=
  let sep := (separate self boids params.separationRadius).multiplyScalar
    params.separation
  let ali := (align self boids params.alignmentRadius).multiplyScalar
    params.alignment
  let coh := (cohere self boids params.cohesionRadius).multiplyScalar
    params.cohesion
  ⟨self.position, self.velocity,
   ((self.acceleration.add sep).add ali).add coh, self.maxForce, self.maxSpeed⟩

/-- Embeds `Boid.update(delta)` (`bird.js` lines 121–131): add the acceleration to
    the velocity, clamp the velocity to `maxSpeed`, advance the position by
    `velocity · (delta · 10)`, and reset the acceleration by
    `multiplyScalar(0)`. -/
def update (delta : ℝ) (b : Boid) : Boid :=
  let v := (b.velocity.add b.acceleration).clampLength 0 b.maxSpeed
  let p := b.position.add (v.multiplyScalar (delta * 10))
  let a := b.acceleration.multiplyScalar 0
  ⟨p, v, a, b.maxForce, b.maxSpeed⟩

/-- Embeds `Boid.wrapBounds(bounds, getGroundHeight)` (`bird.js` lines 134–152):
    terrain-floor bias on the acceleration, then the X/Z hard wraps and the
    top-edge Y wrap.  `minY` is computed once, from the pre-wrap position. -/
def wrapBounds (bounds : ℝ) (getGroundHeight : ℝ → ℝ → ℝ) (b : Boid) : Boid :=
  let minY := getGroundHeight b.position.x b.position.z + 10
  let acc :=
    if b.position.y < minY then
      (⟨b.acceleration.x, b.acceleration.y + 0.8, b.acceleration.z⟩ : Vec3)
    else b.acceleration
  let px := if b.position.x > bounds then -bounds else b.position.x
  let px2 := if px < -bounds then bounds else px
  let py := if b.position.y > bounds + 50 then minY else b.position.y
  let pz := if b.position.z > bounds then -bounds else b.position.z
  let pz2 := if pz < -bounds then bounds else pz
  ⟨⟨px2, py, pz2⟩, b.velocity, acc, b.maxForce, b.maxSpeed⟩

/-- One tick for one boid, in the order of the `animate` loop of `main.js`:
    `flock`, then `update`, then `wrapBounds`. -/
def stepBoid (boids : List Boid) (params : Params) (delta bounds : ℝ)
    (g : ℝ → ℝ → ℝ) (b : Boid) : Boid :=
  wrapBounds bounds g (update delta (flock b boids params))

/-- Division with NaN tracking: dividing by zero in JS float arithmetic
    produces a non-finite result, rendered here as `none`. -/
def divScalarO (v : Vec3) (s : ℝ) : Option Vec3 :=
  if s = 0 then none else some (v.divideScalar s)

/-- NaN-tracking `Vector3.normalize`, keeping the `length() || 1` guard of
    the three.js source. -/
def normalizeO (v : Vec3) : Option Vec3 :=
  divScalarO v (if v.length = 0 then 1 else v.length)

/-- NaN-tracking `Vector3.setLength`. -/
def setLengthO (v : Vec3) (l : ℝ) : Option Vec3 :=
  (normalizeO v).map (fun u => u.multiplyScalar l)

/-- NaN-tracking `Vector3.clampLength`, keeping the `length || 1` guard. -/
def clampLengthO (v : Vec3) (lo hi : ℝ) : Option Vec3 :=
  (divScalarO v (if v.length = 0 then 1 else v.length)).map
    (fun u => u.multiplyScalar (max lo (min hi v.length)))

/-- NaN-tracking `Boid.seek`. -/
def seekO (self : Boid) (target : Vec3) : Option Vec3 :=
  (setLengthO (target.sub self.position) self.maxSpeed).bind
    (fun desired => clampLengthO (desired.sub self.velocity) 0 self.maxForce)

/-- NaN-tracking loop iteration of `Boid.separate`. -/
def sepStepO (self : Boid) (radius : ℝ) (acc : Option (Vec3 × ℕ))
    (other : Boid) : Option (Vec3 × ℕ) :=
  acc.bind fun sc =>
    let d := self.position.distanceTo other.position
    if 0 < d ∧ d < radius then
      (normalizeO (self.position.sub other.position)).bind fun nd =>
        (divScalarO nd d).map fun w => (sc.1.add w, sc.2 + 1)
    else some sc

/-- NaN-tracking `Boid.separate`. -/
def separateO (self : Boid) (boids : List Boid) (radius : ℝ) : Option Vec3 :=
  (boids.foldl (sepStepO self radius) (some (Vec3.zero, 0))).bind fun sc =>
    (if 0 < sc.2 then divScalarO sc.1 (sc.2 : ℝ) else some sc.1).bind
      fun steer =>
        if 0 < steer.lengthSq then
          (setLengthO steer self.maxSpeed).bind fun s =>
            clampLengthO (s.sub self.velocity) 0 self.maxForce
        else some steer

/-- NaN-tracking `Boid.align` (the loop only adds vectors, so it is the
    total `alignStep` fold; divisions happen after the loop). -/
def alignO (self : Boid) (boids : List Boid) (radius : ℝ) : Option Vec3 :=
  let sc := boids.foldl (alignStep self radius) (Vec3.zero, 0)
  if 0 < sc.2 then
    (divScalarO sc.1 (sc.2 : ℝ)).bind fun s =>
      (setLengthO s self.maxSpeed).bind fun s2 =>
        clampLengthO (s2.sub self.velocity) 0 self.maxForce
  else some Vec3.zero

/-- NaN-tracking `Boid.cohere`. -/
def cohereO (self : Boid) (boids : List Boid) (radius : ℝ) : Option Vec3 :=
  let sc := boids.foldl (cohStep self radius) (Vec3.zero, 0)
  if 0 < sc.2 then (divScalarO sc.1 (sc.2 : ℝ)).bind (seekO self)
  else some Vec3.zero

/-- NaN-tracking `Boid.update`. -/
def updateO (delta : ℝ) (b : Boid) : Option Boid :=
  (clampLengthO (b.velocity.add b.acceleration) 0 b.maxSpeed).map fun v =>
    ⟨b.position.add (v.multiplyScalar (delta * 10)), v,
     b.acceleration.multiplyScalar 0, b.maxForce, b.maxSpeed⟩

/-- The facing-axis derivation of `Boid.updateMesh` (`bird.js` lines
    155–159): `mesh.lookAt(position + velocity)` makes three.js
    `Matrix4.lookAt` form `z = eye − target` (here `−velocity`), replace it
    by `(x, y, 1)` when its squared length is zero, and normalize it.
    NaN-tracking as above. -/
def faceAxisO (b : Boid) : Option Vec3 :=
  let zv := b.position.sub (b.position.add b.velocity)
  let zv2 := if zv.lengthSq = 0 then (⟨zv.x, zv.y, 1⟩ : Vec3) else zv
  normalizeO zv2

/-- The flocking parameters of `main.js` at their declared defaults. -/
def defaultParams : Params := ⟨2, 1, 1, 30, 50, 50⟩

/-- The `worldBounds` constant of `main.js`. -/
def worldBounds : ℝ := 300

/-- A flat height oracle, `elevationAt(x, z) = 0` everywhere. -/
def flatGround : ℝ → ℝ → ℝ := fun _ _ => 0

/-- A concrete boid for the speed-bound witness. -/
def boidW1 : Boid := ⟨⟨0, 50, 0⟩, ⟨1, 0, 0⟩, Vec3.zero, 0.05, 4⟩

/-- A concrete boid below the terrain clearance (`position.y = 5 < 10`). -/
def boidLow : Boid := ⟨⟨0, 5, 0⟩, Vec3.zero, Vec3.zero, 0.05, 4⟩

/-- A concrete boid beyond the `+X` world edge (`position.x = 301`). -/
def boidFar : Boid := ⟨⟨301, 50, 0⟩, ⟨1, 0, 0⟩, Vec3.zero, 0.05, 4⟩

/-- The separation-direction counterexample agent: velocity `(−4, 0, 0)`,
    exactly `−maxSpeed` along X. -/
def selfBack : Boid := ⟨⟨0, 0, 0⟩, ⟨-4, 0, 0⟩, Vec3.zero, 0.05, 4⟩

/-- The neighbor of `selfBack`, one unit away along `+X`. -/
def otherNear : Boid := ⟨⟨1, 0, 0⟩, Vec3.zero, Vec3.zero, 0.05, 4⟩

/-- A zero-velocity agent for the separation-direction witness. -/
def selfStill : Boid := ⟨⟨0, 0, 0⟩, Vec3.zero, Vec3.zero, 0.05, 4⟩

/-- The neighbor of `selfStill`, five units away along `+X`. -/
def otherFive : Boid := ⟨⟨5, 0, 0⟩, Vec3.zero, Vec3.zero, 0.05, 4⟩

end

/-- The squared length is a sum of squares, hence nonnegative. -/
theorem lengthSq_nonneg (v : Vec3) : 0 ≤ v.lengthSq := by
  unfold Vec3.lengthSq; positivity

/-- Lengths are nonnegative. -/
theorem length_nonneg (v : Vec3) : 0 ≤ v.length := Real.sqrt_nonneg _

/-- The squared length vanishes exactly on the zero vector. -/
theorem lengthSq_eq_zero_iff (v : Vec3) : v.lengthSq = 0 ↔ v = Vec3.zero := by
  obtain ⟨x, y, z⟩ := v
  unfold Vec3.lengthSq Vec3.zero
  constructor
  · intro h
    simp only [Vec3.mk.injEq]
    refine ⟨?_, ?_, ?_⟩ <;> nlinarith [sq_nonneg x, sq_nonneg y, sq_nonneg z]
  · intro h
    rw [h]
    norm_num

/-- The length vanishes exactly on the zero vector. -/
theorem length_eq_zero_iff (v : Vec3) : v.length = 0 ↔ v = Vec3.zero := by
  unfold Vec3.length
  rw [Real.sqrt_eq_zero (lengthSq_nonneg v)]
  exact lengthSq_eq_zero_iff v

/-- The zero vector has length zero. -/
theorem length_zero : Vec3.zero.length = 0 := (length_eq_zero_iff _).mpr rfl

/-- A nonzero vector has positive length. -/
theorem length_pos_of_ne {v : Vec3} (h : v ≠ Vec3.zero) : 0 < v.length :=
  lt_of_le_of_ne (length_nonneg v)
    (fun h0 => h ((length_eq_zero_iff v).mp h0.symm))

/-- Scaling a vector scales its length by the absolute scalar. -/
theorem length_multiplyScalar (v : Vec3) (s : ℝ) :
    (v.multiplyScalar s).length = |s| * v.length := by
  unfold Vec3.length Vec3.lengthSq Vec3.multiplyScalar
  dsimp only
  rw [show (v.x * s) ^ 2 + (v.y * s) ^ 2 + (v.z * s) ^ 2
        = s ^ 2 * (v.x ^ 2 + v.y ^ 2 + v.z ^ 2) by ring,
      Real.sqrt_mul (sq_nonneg s), Real.sqrt_sq_eq_abs]

/-- The clamp `clampLength 0 hi` really bounds the length by `hi` (for `0 ≤ hi`). -/
theorem clampLength_le (v : Vec3) {hi : ℝ} (h : 0 ≤ hi) :
    (v.clampLength 0 hi).length ≤ hi := by
  unfold Vec3.clampLength Vec3.divideScalar
  rw [length_multiplyScalar, length_multiplyScalar]
  have hc : max 0 (min hi v.length) ≤ hi := max_le h (min_le_left _ _)
  have habs : |max 0 (min hi v.length)| = max 0 (min hi v.length) :=
    abs_of_nonneg (le_max_left _ _)
  by_cases h0 : v.length = 0
  · rw [if_pos h0, h0, mul_zero, mul_zero]
    exact h
  · have hl : 0 < v.length := lt_of_le_of_ne (length_nonneg v) (Ne.symm h0)
    rw [if_neg h0, habs, abs_of_pos (by positivity : (0 : ℝ) < 1 / v.length),
        one_div, inv_mul_cancel₀ h0, mul_one]
    exact hc

/-- The length of a normalized nonzero vector is `1`. -/
theorem normalize_length {v : Vec3} (h : v ≠ Vec3.zero) :
    v.normalize.length = 1 := by
  unfold Vec3.normalize Vec3.divideScalar
  have h0 : v.length ≠ 0 := fun he => h ((length_eq_zero_iff v).mp he)
  have hl : 0 < v.length := lt_of_le_of_ne (length_nonneg v) (Ne.symm h0)
  rw [if_neg h0, length_multiplyScalar,
      abs_of_pos (by positivity : (0 : ℝ) < 1 / v.length), one_div,
      inv_mul_cancel₀ h0]

/-- Applying `setLength` to a nonzero vector yields a vector of length `|l|`. -/
theorem setLength_length {v : Vec3} (h : v ≠ Vec3.zero) (l : ℝ) :
    (v.setLength l).length = |l| := by
  unfold Vec3.setLength
  rw [length_multiplyScalar, normalize_length h, mul_one]

/-- The distance from a point to itself is zero. -/
theorem distanceTo_self (p : Vec3) : p.distanceTo p = 0 := by
  have h : p.sub p = Vec3.zero := by
    unfold Vec3.sub Vec3.zero
    simp
  unfold Vec3.distanceTo
  rw [h, length_zero]

/-- With every other boid at distance `0` or at least `r`, the separation
    loop never fires and leaves its accumulator unchanged. -/
theorem foldl_sepStep_id (self : Boid) (r : ℝ) :
    ∀ bs : List Boid,
      (∀ o ∈ bs, self.position.distanceTo o.position = 0 ∨
        r ≤ self.position.distanceTo o.position) →
      ∀ init, bs.foldl (sepStep self r) init = init := by
  intro bs
  induction bs with
  | nil => intro _ _; rfl
  | cons a t ih =>
    intro h init
    have hstep : sepStep self r init a = init := by
      simp only [sepStep]
      rw [if_neg]
      rcases h a (List.mem_cons_self a t) with h0 | h0
      · rintro ⟨hlt, -⟩; rw [h0] at hlt; exact lt_irrefl 0 hlt
      · rintro ⟨-, hlt⟩; exact absurd hlt (not_lt.mpr h0)
    rw [List.foldl_cons, hstep]
    exact ih (fun o ho => h o (List.mem_cons_of_mem _ ho)) init

/-- Same statement for the alignment loop. -/
theorem foldl_alignStep_id (self : Boid) (r : ℝ) :
    ∀ bs : List Boid,
      (∀ o ∈ bs, self.position.distanceTo o.position = 0 ∨
        r ≤ self.position.distanceTo o.position) →
      ∀ init, bs.foldl (alignStep self r) init = init := by
  intro bs
  induction bs with
  | nil => intro _ _; rfl
  | cons a t ih =>
    intro h init
    have hstep : alignStep self r init a = init := by
      simp only [alignStep]
      rw [if_neg]
      rcases h a (List.mem_cons_self a t) with h0 | h0
      · rintro ⟨hlt, -⟩; rw [h0] at hlt; exact lt_irrefl 0 hlt
      · rintro ⟨-, hlt⟩; exact absurd hlt (not_lt.mpr h0)
    rw [List.foldl_cons, hstep]
    exact ih (fun o ho => h o (List.mem_cons_of_mem _ ho)) init

/-- Same statement for the cohesion loop. -/
theorem foldl_cohStep_id (self : Boid) (r : ℝ) :
    ∀ bs : List Boid,
      (∀ o ∈ bs, self.position.distanceTo o.position = 0 ∨
        r ≤ self.position.distanceTo o.position) →
      ∀ init, bs.foldl (cohStep self r) init = init := by
  intro bs
  induction bs with
  | nil => intro _ _; rfl
  | cons a t ih =>
    intro h init
    have hstep : cohStep self r init a = init := by
      simp only [cohStep]
      rw [if_neg]
      rcases h a (List.mem_cons_self a t) with h0 | h0
      · rintro ⟨hlt, -⟩; rw [h0] at hlt; exact lt_irrefl 0 hlt
      · rintro ⟨-, hlt⟩; exact absurd hlt (not_lt.mpr h0)
    rw [List.foldl_cons, hstep]
    exact ih (fun o ho => h o (List.mem_cons_of_mem _ ho)) init

/-- The three rules each produce the zero vector for an isolated boid. -/
theorem rules_isolated (self : Boid) (boids : List Boid) (r : ℝ)
    (h : ∀ o ∈ boids, self.position.distanceTo o.position = 0 ∨
      r ≤ self.position.distanceTo o.position) :
    separate self boids r = Vec3.zero ∧ align self boids r = Vec3.zero ∧
      cohere self boids r = Vec3.zero := by
  refine ⟨?_, ?_, ?_⟩
  · unfold separate
    rw [foldl_sepStep_id self r boids h]
    norm_num
    intro h0
    exact absurd ((lengthSq_eq_zero_iff _).mpr rfl) (ne_of_gt h0)
  · unfold align
    rw [foldl_alignStep_id self r boids h]
    norm_num
  · unfold cohere
    rw [foldl_cohStep_id self r boids h]
    norm_num

/-- The `length() || 1` guard of the three.js source is never zero. -/
theorem length_guard_ne (v : Vec3) :
    (if v.length = 0 then 1 else v.length) ≠ 0 := by
  by_cases h : v.length = 0
  · rw [if_pos h]; exact one_ne_zero
  · rw [if_neg h]; exact h

/-- Dividing by a nonzero scalar never produces a NaN. -/
theorem divScalarO_eq (v : Vec3) {s : ℝ} (hs : s ≠ 0) :
    divScalarO v s = some (v.divideScalar s) := by
  unfold divScalarO
  rw [if_neg hs]

/-- Guarded normalization is total and agrees with `normalize`. -/
theorem normalizeO_eq (v : Vec3) : normalizeO v = some v.normalize := by
  unfold normalizeO Vec3.normalize
  exact divScalarO_eq v (length_guard_ne v)

/-- Guarded `setLength` is total and agrees with `setLength`. -/
theorem setLengthO_eq (v : Vec3) (l : ℝ) :
    setLengthO v l = some (v.setLength l) := by
  unfold setLengthO Vec3.setLength
  rw [normalizeO_eq]
  rfl

/-- Guarded `clampLength` is total and agrees with `clampLength`. -/
theorem clampLengthO_eq (v : Vec3) (lo hi : ℝ) :
    clampLengthO v lo hi = some (v.clampLength lo hi) := by
  unfold clampLengthO Vec3.clampLength
  rw [divScalarO_eq v (length_guard_ne v)]
  rfl

/-- The `seek` helper never produces a NaN. -/
theorem seekO_eq (self : Boid) (target : Vec3) :
    seekO self target = some (seek self target) := by
  unfold seekO seek
  rw [setLengthO_eq]
  simp only [Option.some_bind]
  rw [clampLengthO_eq]

/-- The NaN-tracking separation loop agrees with the total one. -/
theorem foldl_sepStepO (self : Boid) (r : ℝ) :
    ∀ (bs : List Boid) (init : Vec3 × ℕ),
      bs.foldl (sepStepO self r) (some init) =
        some (bs.foldl (sepStep self r) init) := by
  intro bs
  induction bs with
  | nil => intro _; rfl
  | cons a t ih =>
    intro init
    rw [List.foldl_cons, List.foldl_cons]
    have hstep : sepStepO self r (some init) a =
        some (sepStep self r init a) := by
      simp only [sepStepO, sepStep, Option.some_bind]
      by_cases hc : 0 < self.position.distanceTo a.position ∧
          self.position.distanceTo a.position < r
      · rw [if_pos hc, if_pos hc, normalizeO_eq]
        simp only [Option.some_bind]
        rw [divScalarO_eq _ (ne_of_gt hc.1)]
        rfl
      · rw [if_neg hc, if_neg hc]
    rw [hstep]
    exact ih _

/-- The `separate` rule never produces a NaN. -/
theorem separateO_eq (self : Boid) (boids : List Boid) (r : ℝ) :
    separateO self boids r = some (separate self boids r) := by
  unfold separateO separate
  rw [foldl_sepStepO]
  simp only [Option.some_bind]
  by_cases h2 : 0 < (boids.foldl (sepStep self r) (Vec3.zero, 0)).2
  · rw [if_pos h2, if_pos h2,
      divScalarO_eq _ (Nat.cast_ne_zero.mpr h2.ne')]
    simp only [Option.some_bind]
    by_cases h3 : 0 < ((boids.foldl (sepStep self r) (Vec3.zero, 0)).1.divideScalar
        ((boids.foldl (sepStep self r) (Vec3.zero, 0)).2 : ℝ)).lengthSq
    · rw [if_pos h3, if_pos h3, setLengthO_eq]
      simp only [Option.some_bind]
      rw [clampLengthO_eq]
    · rw [if_neg h3, if_neg h3]
  · rw [if_neg h2, if_neg h2]
    simp only [Option.some_bind]
    by_cases h3 : 0 < (boids.foldl (sepStep self r) (Vec3.zero, 0)).1.lengthSq
    · rw [if_pos h3, if_pos h3, setLengthO_eq]
      simp only [Option.some_bind]
      rw [clampLengthO_eq]
    · rw [if_neg h3, if_neg h3]

/-- The `align` rule never produces a NaN. -/
theorem alignO_eq (self : Boid) (boids : List Boid) (r : ℝ) :
    alignO self boids r = some (align self boids r) := by
  unfold alignO align
  by_cases h2 : 0 < (boids.foldl (alignStep self r) (Vec3.zero, 0)).2
  · rw [if_pos h2, if_pos h2,
      divScalarO_eq _ (Nat.cast_ne_zero.mpr h2.ne')]
    simp only [Option.some_bind]
    rw [setLengthO_eq]
    simp only [Option.some_bind]
    rw [clampLengthO_eq]
  · rw [if_neg h2, if_neg h2]

/-- The `cohere` rule never produces a NaN. -/
theorem cohereO_eq (self : Boid) (boids : List Boid) (r : ℝ) :
    cohereO self boids r = some (cohere self boids r) := by
  unfold cohereO cohere
  by_cases h2 : 0 < (boids.foldl (cohStep self r) (Vec3.zero, 0)).2
  · rw [if_pos h2, if_pos h2,
      divScalarO_eq _ (Nat.cast_ne_zero.mpr h2.ne')]
    simp only [Option.some_bind]
    rw [seekO_eq]
  · rw [if_neg h2, if_neg h2]

/-- The integrator `update` never produces a NaN in the boid state. -/
theorem updateO_eq (delta : ℝ) (b : Boid) :
    updateO delta b = some (update delta b) := by
  unfold updateO update
  rw [clampLengthO_eq]
  rfl

/-- The facing-axis derivation of `updateMesh` is always defined. -/
theorem faceAxisO_isSome (b : Boid) : (faceAxisO b).isSome := by
  unfold faceAxisO
  rw [normalizeO_eq]
  rfl

/-- With zero velocity, the facing axis short-circuits to the three.js
    default `(0, 0, 1)`. -/
theorem faceAxisO_zero_velocity (p a : Vec3) (f s : ℝ) :
    faceAxisO ⟨p, Vec3.zero, a, f, s⟩ = some ⟨0, 0, 1⟩ := by
  unfold faceAxisO
  have hzv : p.sub (p.add Vec3.zero) = Vec3.zero := by
    unfold Vec3.sub Vec3.add Vec3.zero
    simp
  dsimp only
  rw [hzv]
  have h0 : (Vec3.zero : Vec3).lengthSq = 0 := (lengthSq_eq_zero_iff _).mpr rfl
  rw [if_pos h0]
  have hlen : (⟨Vec3.zero.x, Vec3.zero.y, 1⟩ : Vec3).length = 1 := by
    unfold Vec3.length Vec3.lengthSq Vec3.zero
    norm_num
  unfold normalizeO
  rw [hlen]
  norm_num
  rw [divScalarO_eq _ one_ne_zero]
  unfold Vec3.divideScalar Vec3.multiplyScalar Vec3.zero
  norm_num

/-- A vector whose squared length is not positive has length zero. -/
theorem length_of_nonpos_lengthSq {w : Vec3} (h : ¬ 0 < w.lengthSq) :
    w.length = 0 := by
  have h0 : w.lengthSq = 0 := le_antisymm (not_lt.mp h) (lengthSq_nonneg w)
  unfold Vec3.length
  rw [h0, Real.sqrt_zero]

/-- The `seek` output is bounded by `maxForce` (for `0 ≤ maxForce`). -/
theorem seek_length_le (self : Boid) (target : Vec3)
    (h : 0 ≤ self.maxForce) : (seek self target).length ≤ self.maxForce := by
  unfold seek
  exact clampLength_le _ h

/-- Claim C1 (confirmed): after one full simulation step for a boid —
    `flock`, then `update`, then `wrapBounds`, the order of the `animate`
    loop — the velocity magnitude is at most the `maxSpeed` of that boid
    (which is nonnegative for every boid the program builds). -/
theorem speed_bound_after_step (boids : List Boid) (params : Params)
    (delta bounds : ℝ) (g : ℝ → ℝ → ℝ) (b : Boid) (h : 0 ≤ b.maxSpeed) :
    (stepBoid boids params delta bounds g b).velocity.length ≤ b.maxSpeed := by
  have hv : (stepBoid boids params delta bounds g b).velocity =
      ((flock b boids params).velocity.add
        (flock b boids params).acceleration).clampLength 0 b.maxSpeed := rfl
  rw [hv]
  exact clampLength_le _ h

/-- Witness for C1 at a concrete boid (`maxSpeed = 4`). -/
theorem speed_bound_after_step_witness :
    0 ≤ (4 : ℝ) ∧
      (stepBoid [boidW1] defaultParams (1 / 10) worldBounds flatGround
          boidW1).velocity.length ≤ boidW1.maxSpeed :=
  ⟨by norm_num,
   speed_bound_after_step [boidW1] defaultParams (1 / 10) worldBounds
     flatGround boidW1 (by norm_num [boidW1])⟩

/-- Claim C2 (confirmed): each steering rule — `separate`, `align`,
    `cohere`, and the `seek` helper `cohere` delegates to — returns a
    vector of magnitude at most `maxForce` (nonnegative for every boid the
    program builds); in particular this holds whenever the returned vector
    is nonzero. -/
theorem force_bound_rules (self : Boid) (boids : List Boid) (radius : ℝ)
    (target : Vec3) (h : 0 ≤ self.maxForce) :
    (separate self boids radius).length ≤ self.maxForce ∧
      (align self boids radius).length ≤ self.maxForce ∧
      (cohere self boids radius).length ≤ self.maxForce ∧
      (seek self target).length ≤ self.maxForce := by
  refine ⟨?_, ?_, ?_, seek_length_le self target h⟩
  · unfold separate
    dsimp only
    set sc := boids.foldl (sepStep self radius) (Vec3.zero, 0) with hsc
    set steer := if 0 < sc.2 then sc.1.divideScalar (sc.2 : ℝ) else sc.1
      with hsteer
    by_cases h3 : 0 < steer.lengthSq
    · rw [if_pos h3]
      exact clampLength_le _ h
    · rw [if_neg h3, length_of_nonpos_lengthSq h3]
      exact h
  · unfold align
    dsimp only
    set sc := boids.foldl (alignStep self radius) (Vec3.zero, 0) with hsc
    by_cases h2 : 0 < sc.2
    · rw [if_pos h2]
      exact clampLength_le _ h
    · rw [if_neg h2, length_zero]
      exact h
  · unfold cohere
    dsimp only
    set sc := boids.foldl (cohStep self radius) (Vec3.zero, 0) with hsc
    by_cases h2 : 0 < sc.2
    · rw [if_pos h2]
      exact seek_length_le self _ h
    · rw [if_neg h2, length_zero]
      exact h

/-- Witness for C2 at a concrete boid (`maxForce = 0.05`). -/
theorem force_bound_rules_witness :
    0 ≤ (0.05 : ℝ) ∧
      ((separate boidW1 [boidW1] 30).length ≤ boidW1.maxForce ∧
        (align boidW1 [boidW1] 30).length ≤ boidW1.maxForce ∧
        (cohere boidW1 [boidW1] 30).length ≤ boidW1.maxForce ∧
        (seek boidW1 Vec3.zero).length ≤ boidW1.maxForce) :=
  ⟨by norm_num,
   force_bound_rules boidW1 [boidW1] 30 Vec3.zero (by norm_num [boidW1])⟩

/-- Claim C3 (confirmed): the integrator adds the acceleration to the
    velocity with no `delta` scaling, clamps the velocity magnitude to
    `maxSpeed`, adds `velocity · delta · 10` to the position, and zeroes
    the acceleration; the resulting velocity does not depend on `delta`. -/
theorem integrator_steps (delta : ℝ) (b : Boid) :
    update delta b =
      ⟨b.position.add
          (((b.velocity.add b.acceleration).clampLength 0
              b.maxSpeed).multiplyScalar (delta * 10)),
        (b.velocity.add b.acceleration).clampLength 0 b.maxSpeed,
        Vec3.zero, b.maxForce, b.maxSpeed⟩ ∧
      ∀ delta2 : ℝ, (update delta b).velocity = (update delta2 b).velocity := by
  constructor
  · simp only [update]
    rw [Boid.mk.injEq]
    refine ⟨rfl, rfl, ?_, rfl, rfl⟩
    unfold Vec3.multiplyScalar Vec3.zero
    simp
  · intro delta2
    rfl

/-- Claim C7 (confirmed): the boundary policy adds exactly `0.8` to the
    Y component of the acceleration when `position.y` is strictly below
    `elevationAt(x, z) + 10` and leaves the acceleration unchanged
    otherwise; in particular a boid at `y = 5` over a flat zero oracle
    gets exactly `+0.8`. -/
theorem terrain_floor_bias :
    (∀ (bounds : ℝ) (g : ℝ → ℝ → ℝ) (b : Boid),
        (wrapBounds bounds g b).acceleration =
          if b.position.y < g b.position.x b.position.z + 10 then
            (⟨b.acceleration.x, b.acceleration.y + 0.8, b.acceleration.z⟩ :
              Vec3)
          else b.acceleration) ∧
      (wrapBounds worldBounds flatGround boidLow).acceleration.y =
        boidLow.acceleration.y + 0.8 := by
  have hgen : ∀ (bounds : ℝ) (g : ℝ → ℝ → ℝ) (b : Boid),
      (wrapBounds bounds g b).acceleration =
        if b.position.y < g b.position.x b.position.z + 10 then
          (⟨b.acceleration.x, b.acceleration.y + 0.8, b.acceleration.z⟩ :
            Vec3)
        else b.acceleration := fun _ _ _ => rfl
  refine ⟨hgen, ?_⟩
  rw [hgen, if_pos (by norm_num [boidLow, flatGround])]

/-- Claim C6 (confirmed): the world-edge wrap teleports `x > bounds` to
    `-bounds`, `x < -bounds` to `bounds` (same for Z), and wraps only the
    top Y edge: `y > bounds + 50` is set to `minY`, the oracle elevation at
    the pre-wrap horizontal position plus 10. -/
theorem wrap_edges (bounds : ℝ) (g : ℝ → ℝ → ℝ) (b : Boid)
    (hb : 0 ≤ bounds) :
    (b.position.x > bounds → (wrapBounds bounds g b).position.x = -bounds) ∧
      (b.position.x < -bounds → (wrapBounds bounds g b).position.x = bounds) ∧
      (b.position.z > bounds → (wrapBounds bounds g b).position.z = -bounds) ∧
      (b.position.z < -bounds → (wrapBounds bounds g b).position.z = bounds) ∧
      (b.position.y > bounds + 50 →
        (wrapBounds bounds g b).position.y =
          g b.position.x b.position.z + 10) := by
  unfold wrapBounds
  dsimp only
  refine ⟨?_, ?_, ?_, ?_, ?_⟩
  · intro hx
    rw [if_pos hx, if_neg (lt_irrefl (-bounds))]
  · intro hx
    have hnx : ¬ b.position.x > bounds := by push_neg; linarith
    rw [if_neg hnx, if_pos hx]
  · intro hz
    rw [if_pos hz, if_neg (lt_irrefl (-bounds))]
  · intro hz
    have hnz : ¬ b.position.z > bounds := by push_neg; linarith
    rw [if_neg hnz, if_pos hz]
  · intro hy
    rw [if_pos hy]

/-- Witness for C6: a boid at `x = worldBound + 1 = 301` is teleported to
    `x = -worldBound = -300`. -/
theorem wrap_edges_witness :
    (wrapBounds worldBounds flatGround boidFar).position.x = -worldBounds :=
  (wrap_edges worldBounds flatGround boidFar
      (by norm_num [worldBounds])).1
    (by norm_num [boidFar, worldBounds])

/-- Claim C8 (confirmed): a boid whose distance to every flock member is
    either exactly `0` or at least the rule radius — a lone boid in
    particular — gets the zero vector from all three rules (the rules are
    total functions, so no error can be raised). -/
theorem isolation_rules (self : Boid) (boids : List Boid) (r : ℝ)
    (h : ∀ o ∈ boids, self.position.distanceTo o.position = 0 ∨
      r ≤ self.position.distanceTo o.position) :
    separate self boids r = Vec3.zero ∧ align self boids r = Vec3.zero ∧
      cohere self boids r = Vec3.zero :=
  rules_isolated self boids r h

/-- Witness for C8: a flock containing only the boid itself. -/
theorem isolation_rules_witness :
    separate boidW1 [boidW1] 30 = Vec3.zero ∧
      align boidW1 [boidW1] 30 = Vec3.zero ∧
      cohere boidW1 [boidW1] 30 = Vec3.zero :=
  isolation_rules boidW1 [boidW1] 30 (by
    intro o ho
    rw [List.mem_singleton] at ho
    subst ho
    exact Or.inl (distanceTo_self _))

/-- Scaling any vector by `0` gives the zero vector. -/
theorem multiplyScalar_zero (v : Vec3) :
    v.multiplyScalar 0 = Vec3.zero := by
  unfold Vec3.multiplyScalar Vec3.zero
  simp

/-- Adding the zero vector is the identity. -/
theorem add_zero_vec (v : Vec3) : v.add Vec3.zero = v := by
  unfold Vec3.add Vec3.zero
  simp

/-- Scaling the zero vector gives the zero vector. -/
theorem zero_multiplyScalar (s : ℝ) :
    Vec3.zero.multiplyScalar s = Vec3.zero := by
  unfold Vec3.multiplyScalar Vec3.zero
  simp

/-- Claim C4 (amended): the integrator leaves the acceleration at zero,
    but the boundary policy, which runs after it, adds `0.8` to the Y
    component when the boid is below the terrain clearance — so at the end
    of a tick the acceleration is `(0, 0.8, 0)` in that case and zero
    otherwise. -/
theorem acceleration_after_tick (boids : List Boid) (params : Params)
    (delta bounds : ℝ) (g : ℝ → ℝ → ℝ) (b : Boid) :
    (update delta (flock b boids params)).acceleration = Vec3.zero ∧
      (stepBoid boids params delta bounds g b).acceleration =
        (if (update delta (flock b boids params)).position.y <
            g (update delta (flock b boids params)).position.x
              (update delta (flock b boids params)).position.z + 10 then
          (⟨0, 0.8, 0⟩ : Vec3)
        else Vec3.zero) := by
  have hacc : (update delta (flock b boids params)).acceleration =
      Vec3.zero := multiplyScalar_zero _
  refine ⟨hacc, ?_⟩
  show (wrapBounds bounds g (update delta (flock b boids params))).acceleration
    = _
  unfold wrapBounds
  dsimp only
  rw [hacc]
  by_cases hc : (update delta (flock b boids params)).position.y <
      g (update delta (flock b boids params)).position.x
        (update delta (flock b boids params)).position.z + 10
  · rw [if_pos hc, if_pos hc]
    unfold Vec3.zero
    dsimp only
    rw [Vec3.mk.injEq]
    norm_num
  · rw [if_neg hc, if_neg hc]

/-- Counterexample to claim C4 as stated: for a boid at `y = 5` over a flat
    zero oracle, the acceleration at the end of the tick (after `flock`,
    `update`, and `wrapBounds` have all run) is `(0, 0.8, 0)`, not zero. -/
theorem acceleration_after_tick_cx :
    (stepBoid [boidLow] defaultParams (1 / 10) worldBounds flatGround
        boidLow).acceleration ≠ Vec3.zero := by
  have hiso : ∀ r : ℝ, ∀ o ∈ [boidLow],
      boidLow.position.distanceTo o.position = 0 ∨
        r ≤ boidLow.position.distanceTo o.position := by
    intro r o ho
    rw [List.mem_singleton] at ho
    subst ho
    exact Or.inl (distanceTo_self _)
  have hflock : flock boidLow [boidLow] defaultParams = boidLow := by
    unfold flock
    rw [(rules_isolated _ _ _ (hiso _)).1, (rules_isolated _ _ _ (hiso _)).2.1,
        (rules_isolated _ _ _ (hiso _)).2.2]
    dsimp only
    rw [zero_multiplyScalar, zero_multiplyScalar, zero_multiplyScalar,
        add_zero_vec, add_zero_vec, add_zero_vec]
  have hupd : update (1 / 10) boidLow = boidLow := by
    unfold update boidLow
    dsimp only
    rw [Boid.mk.injEq]
    refine ⟨?_, ?_, ?_, rfl, rfl⟩
    · unfold Vec3.add Vec3.zero Vec3.clampLength Vec3.divideScalar
        Vec3.multiplyScalar
      dsimp only
      rw [Vec3.mk.injEq]
      norm_num
    · unfold Vec3.add Vec3.zero Vec3.clampLength Vec3.divideScalar
        Vec3.multiplyScalar
      dsimp only
      rw [Vec3.mk.injEq]
      norm_num
    · exact multiplyScalar_zero _
  have hstep : stepBoid [boidLow] defaultParams (1 / 10) worldBounds
      flatGround boidLow = wrapBounds worldBounds flatGround boidLow := by
    unfold stepBoid
    rw [hflock, hupd]
  rw [hstep]
  have hwrap : (wrapBounds worldBounds flatGround boidLow).acceleration =
      ⟨0, 0.8, 0⟩ := by
    unfold wrapBounds boidLow flatGround worldBounds Vec3.zero
    dsimp only
    rw [if_pos (by norm_num : (5 : ℝ) < 0 + 10)]
    rw [Vec3.mk.injEq]
    norm_num
  rw [hwrap]
  intro hEq
  rw [Vec3.zero, Vec3.mk.injEq] at hEq
  norm_num at hEq

/-- Claim C5 (confirmed): no computation of the kernel ever divides by
    zero — each degenerate normalization (zero accumulator in a rule, zero
    desired vector in `seek`, zero velocity in the facing-axis derivation)
    is short-circuited by a guard of the source to a defined value, so the
    NaN-tracking semantics of every rule, of the integrator, and of the
    facing axis always returns `some` of the total semantics; with zero
    velocity the facing axis falls back to the default `(0, 0, 1)`. -/
theorem no_nan_anywhere :
    (∀ (self : Boid) (boids : List Boid) (r : ℝ),
        separateO self boids r = some (separate self boids r) ∧
          alignO self boids r = some (align self boids r) ∧
          cohereO self boids r = some (cohere self boids r)) ∧
      (∀ (self : Boid) (target : Vec3),
        seekO self target = some (seek self target)) ∧
      (∀ (delta : ℝ) (b : Boid), updateO delta b = some (update delta b)) ∧
      (∀ b : Boid, (faceAxisO b).isSome) ∧
      (∀ (p a : Vec3) (f s : ℝ),
        faceAxisO ⟨p, Vec3.zero, a, f, s⟩ = some ⟨0, 0, 1⟩) :=
  ⟨fun self boids r =>
      ⟨separateO_eq self boids r, alignO_eq self boids r,
        cohereO_eq self boids r⟩,
    seekO_eq, updateO_eq, faceAxisO_isSome, faceAxisO_zero_velocity⟩

/-- Full evaluation of `separate` on a pair of boids offset by `d` along
    the X axis with `0 < d < r`: the rule reduces to the finishing step
    applied to `(-maxSpeed, 0, 0) - velocity`. -/
theorem separate_pair_axis (self other : Boid) (d r : ℝ)
    (hpos : other.position =
      ⟨self.position.x + d, self.position.y, self.position.z⟩)
    (hd : 0 < d) (hdr : d < r) :
    separate self [self, other] r =
      ((⟨-self.maxSpeed, 0, 0⟩ : Vec3).sub self.velocity).clampLength 0
        self.maxForce := by
  have hdne : d ≠ 0 := ne_of_gt hd
  have hsub : self.position.sub other.position = ⟨-d, 0, 0⟩ := by
    rw [hpos]
    unfold Vec3.sub
    dsimp only
    rw [Vec3.mk.injEq]
    refine ⟨by ring, by ring, by ring⟩
  have hlen : (⟨-d, 0, 0⟩ : Vec3).length = d := by
    unfold Vec3.length Vec3.lengthSq
    dsimp only
    rw [show (-d) ^ 2 + (0 : ℝ) ^ 2 + (0 : ℝ) ^ 2 = d ^ 2 by ring,
        Real.sqrt_sq hd.le]
  have hdist : self.position.distanceTo other.position = d := by
    unfold Vec3.distanceTo
    rw [hsub, hlen]
  have hd0 : self.position.distanceTo self.position = 0 := distanceTo_self _
  have h1 : sepStep self r (Vec3.zero, 0) self = (Vec3.zero, 0) := by
    simp only [sepStep, hd0, lt_self_iff_false, false_and, if_false]
  have h2 : sepStep self r (Vec3.zero, 0) other = (⟨-(1 / d), 0, 0⟩, 1) := by
    simp only [sepStep, hdist]
    rw [if_pos ⟨hd, hdr⟩, hsub]
    unfold Vec3.normalize
    rw [hlen, if_neg hdne]
    unfold Vec3.divideScalar Vec3.multiplyScalar Vec3.add Vec3.zero
    dsimp only
    rw [Prod.mk.injEq]
    constructor
    · rw [Vec3.mk.injEq]
      refine ⟨by field_simp, by ring, by ring⟩
    · rfl
  have hfold : [self, other].foldl (sepStep self r) (Vec3.zero, 0) =
      (⟨-(1 / d), 0, 0⟩, 1) := by
    rw [List.foldl_cons, h1, List.foldl_cons, h2, List.foldl_nil]
  have hinvne : (1 : ℝ) / d ≠ 0 := one_div_ne_zero hdne
  have hsteer : (⟨-(1 / d), 0, 0⟩ : Vec3).divideScalar ((1 : ℕ) : ℝ) =
      ⟨-(1 / d), 0, 0⟩ := by
    unfold Vec3.divideScalar Vec3.multiplyScalar
    dsimp only
    rw [Vec3.mk.injEq]
    norm_num
  have hlsq : (⟨-(1 / d), 0, 0⟩ : Vec3).lengthSq = (1 / d) ^ 2 := by
    unfold Vec3.lengthSq
    dsimp only
    ring
  have hlen2 : (⟨-(1 / d), 0, 0⟩ : Vec3).length = 1 / d := by
    unfold Vec3.length
    rw [hlsq, Real.sqrt_sq (by positivity : (0 : ℝ) ≤ 1 / d)]
  have hsetlen : (⟨-(1 / d), 0, 0⟩ : Vec3).setLength self.maxSpeed =
      ⟨-self.maxSpeed, 0, 0⟩ := by
    unfold Vec3.setLength Vec3.normalize
    rw [hlen2, if_neg hinvne]
    unfold Vec3.divideScalar Vec3.multiplyScalar
    dsimp only
    rw [Vec3.mk.injEq]
    refine ⟨by field_simp, by ring, by ring⟩
  unfold separate
  dsimp only
  rw [hfold]
  dsimp only
  rw [if_pos (by norm_num : 0 < 1), hsteer,
      if_pos (by rw [hlsq]; positivity), hsetlen]

/-- Claim C9 (amended): for two boids at distance `d` with `0 < d <`
    `separationRadius` along the X axis, the separation rule for the boid
    at the lower X coordinate returns a steering vector with negative X
    component, provided `0 < maxForce` and the X component of its own
    velocity exceeds `-maxSpeed` (as with a boid at rest). -/
theorem separation_direction (self other : Boid) (d r : ℝ)
    (hpos : other.position =
      ⟨self.position.x + d, self.position.y, self.position.z⟩)
    (hd : 0 < d) (hdr : d < r) (hF : 0 < self.maxForce)
    (hv : -self.maxSpeed < self.velocity.x) :
    (separate self [self, other] r).x < 0 := by
  rw [separate_pair_axis self other d r hpos hd hdr]
  set u := (⟨-self.maxSpeed, 0, 0⟩ : Vec3).sub self.velocity with hu
  have hux : u.x = -self.maxSpeed - self.velocity.x := rfl
  have huxneg : u.x < 0 := by rw [hux]; linarith
  have hune : u ≠ Vec3.zero := by
    intro hEq
    have h0 : u.x = 0 := by rw [hEq]; rfl
    rw [h0] at huxneg
    exact lt_irrefl 0 huxneg
  have hl : 0 < u.length := length_pos_of_ne hune
  have hx : (u.clampLength 0 self.maxForce).x =
      u.x * (1 / u.length) * max 0 (min self.maxForce u.length) := by
    unfold Vec3.clampLength Vec3.divideScalar Vec3.multiplyScalar
    dsimp only
    rw [if_neg (ne_of_gt hl)]
  rw [hx]
  have hc : 0 < max 0 (min self.maxForce u.length) := by
    rw [max_eq_right (le_of_lt (lt_min hF hl))]
    exact lt_min hF hl
  have hprod : 0 < 1 / u.length * max 0 (min self.maxForce u.length) :=
    mul_pos (by positivity) hc
  rw [mul_assoc]
  exact mul_neg_of_neg_of_pos huxneg hprod

/-- Counterexample to claim C9 as stated: with velocity `(-4, 0, 0)` —
    exactly `-maxSpeed` along X — the lower boid of a pair at distance `1`
    along X (within the radius `30`) gets a separation vector with X
    component `0`, not negative. -/
theorem separation_direction_cx :
    otherNear.position =
        ⟨selfBack.position.x + 1, selfBack.position.y, selfBack.position.z⟩ ∧
      (0 : ℝ) < 1 ∧ (1 : ℝ) < 30 ∧
      ¬ (separate selfBack [selfBack, otherNear] 30).x < 0 := by
  have hpos : otherNear.position =
      ⟨selfBack.position.x + 1, selfBack.position.y, selfBack.position.z⟩ := by
    unfold otherNear selfBack
    dsimp only
    rw [Vec3.mk.injEq]
    norm_num
  refine ⟨hpos, by norm_num, by norm_num, ?_⟩
  rw [separate_pair_axis selfBack otherNear 1 30 hpos (by norm_num)
      (by norm_num)]
  have hsub : (⟨-selfBack.maxSpeed, 0, 0⟩ : Vec3).sub selfBack.velocity =
      Vec3.zero := by
    unfold selfBack Vec3.sub Vec3.zero
    dsimp only
    rw [Vec3.mk.injEq]
    norm_num
  rw [hsub]
  have hx : (Vec3.zero.clampLength 0 selfBack.maxForce).x = 0 := by
    unfold Vec3.clampLength Vec3.divideScalar Vec3.multiplyScalar Vec3.zero
    dsimp only
    rw [zero_mul, zero_mul]
  rw [hx]
  exact lt_irrefl 0

/-- Witness for the amended C9: a boid at rest and a neighbor five units
    away along `+X`, radius `30`. -/
theorem separation_direction_witness :
    (separate selfStill [selfStill, otherFive] 30).x < 0 := by
  apply separation_direction selfStill otherFive 5 30
  · unfold otherFive selfStill
    dsimp only
    rw [Vec3.mk.injEq]
    norm_num
  · norm_num
  · norm_num
  · norm_num [selfStill]
  · norm_num [selfStill, Vec3.zero]

/-- Claim C10 (amended): whenever the randomly drawn direction vector is
    nonzero, the velocity magnitude of a newly constructed boid is `r₇·4+2`, a
    value in `[2, 6)`; for some draws (direction `(0, 0, 4/5)`, `r₇ = 3/4`)
    the initial speed `5` strictly exceeds `maxSpeed = 4`; and after the
    first `update`, the speed is at most `maxSpeed` for every draw. -/
theorem initial_speed_range :
    (∀ r1 r2 r3 r4 r5 r6 r7 : ℝ, 0 ≤ r7 → r7 < 1 →
        (⟨r4 * 2 - 1, r5 * 2 - 1, r6 * 2 - 1⟩ : Vec3) ≠ Vec3.zero →
        2 ≤ (mkBoid r1 r2 r3 r4 r5 r6 r7).velocity.length ∧
          (mkBoid r1 r2 r3 r4 r5 r6 r7).velocity.length < 6) ∧
      (mkBoid 0 0 0 (1 / 2) (1 / 2) (9 / 10) (3 / 4)).maxSpeed <
        (mkBoid 0 0 0 (1 / 2) (1 / 2) (9 / 10) (3 / 4)).velocity.length ∧
      (∀ r1 r2 r3 r4 r5 r6 r7 delta : ℝ,
        (update delta (mkBoid r1 r2 r3 r4 r5 r6 r7)).velocity.length ≤
          (mkBoid r1 r2 r3 r4 r5 r6 r7).maxSpeed) := by
  refine ⟨?_, ?_, ?_⟩
  · intro r1 r2 r3 r4 r5 r6 r7 h0 h1 hne
    have hlen : (mkBoid r1 r2 r3 r4 r5 r6 r7).velocity.length =
        |r7 * 4 + 2| := by
      show (Vec3.setLength _ _).length = _
      exact setLength_length hne _
    rw [hlen, abs_of_pos (by linarith : (0 : ℝ) < r7 * 4 + 2)]
    constructor <;> linarith
  · have hne : (⟨(1 : ℝ) / 2 * 2 - 1, 1 / 2 * 2 - 1, 9 / 10 * 2 - 1⟩ :
        Vec3) ≠ Vec3.zero := by
      intro hEq
      have h3 := congrArg Vec3.z hEq
      rw [Vec3.zero] at h3
      norm_num at h3
    have hlen : (mkBoid 0 0 0 (1 / 2) (1 / 2) (9 / 10) (3 / 4)).velocity.length
        = |(3 : ℝ) / 4 * 4 + 2| := by
      show (Vec3.setLength _ _).length = _
      exact setLength_length hne _
    rw [hlen, abs_of_pos (by norm_num : (0 : ℝ) < 3 / 4 * 4 + 2)]
    show (4.0 : ℝ) < 3 / 4 * 4 + 2
    norm_num
  · intro r1 r2 r3 r4 r5 r6 r7 delta
    have hv : (update delta (mkBoid r1 r2 r3 r4 r5 r6 r7)).velocity =
        ((mkBoid r1 r2 r3 r4 r5 r6 r7).velocity.add
            (mkBoid r1 r2 r3 r4 r5 r6 r7).acceleration).clampLength 0
          (mkBoid r1 r2 r3 r4 r5 r6 r7).maxSpeed := rfl
    rw [hv]
    apply clampLength_le
    show (0 : ℝ) ≤ 4.0
    norm_num

/-- Counterexample to claim C10 as stated: the draw `r₄ = r₅ = r₆ = 1/2`
    gives the zero direction vector, `setLength` then leaves the velocity
    at zero (three.js `length() || 1` guard), and the initial magnitude is
    `0`, outside `[2, 6)`. -/
theorem initial_speed_range_cx :
    ¬ 2 ≤ (mkBoid 0 0 0 (1 / 2) (1 / 2) (1 / 2) 0).velocity.length := by
  have hdir : (⟨(1 : ℝ) / 2 * 2 - 1, 1 / 2 * 2 - 1, 1 / 2 * 2 - 1⟩ : Vec3) =
      Vec3.zero := by
    rw [Vec3.zero, Vec3.mk.injEq]
    norm_num
  have hv : (mkBoid 0 0 0 (1 / 2) (1 / 2) (1 / 2) 0).velocity = Vec3.zero := by
    show Vec3.setLength _ _ = _
    rw [hdir]
    unfold Vec3.setLength Vec3.normalize Vec3.divideScalar Vec3.multiplyScalar
      Vec3.zero
    dsimp only
    rw [Vec3.mk.injEq]
    norm_num
  rw [hv, length_zero]
  norm_num

/-- Witness for the amended C10 at the all-zero draw (direction
    `(-1, -1, -1)`). -/
theorem initial_speed_range_witness :
    2 ≤ (mkBoid 0 0 0 0 0 0 0).velocity.length ∧
      (mkBoid 0 0 0 0 0 0 0).velocity.length < 6 :=
  initial_speed_range.1 0 0 0 0 0 0 0 (by norm_num) (by norm_num) (by
    intro hEq
    have h3 := congrArg Vec3.x hEq
    rw [Vec3.zero] at h3
    norm_num at h3)

end Flocking
